import Mathlib

/-!
Verification of the CSC (cycling speed and cadence) telemetry core of the
IC4-RPI-Bluetooth repository.  The decoder and metrics engine live in
src/main.py and, duplicated, in src/SpinMain.py; the embedding below follows
src/main.py line by line.  Python numbers are modelled by the rationals,
Python exceptions by an explicit Except monad: struct.error from a failing
struct.unpack_from, ZeroDivisionError from division, TypeError from indexing
None.  The module level globals (previousSample, currentSample, hasWheel,
hasCrank, startDistance, bluetoothStats) become the fields of EngineState and
every function threads that state explicitly.  The wheel circumference and
the smoothing factor, module level constants in the source, are passed as
parameters ws and alpha.
-/

/-- The Python exceptions the embedded code can raise. -/
inductive PyErr where
  | structError
  | zeroDivisionError
  | typeError
  deriving DecidableEq

/-- The sample dictionary built in parse_buffer: keys wheel, wheelTime,
crank, crankTime, each an unsigned integer unpacked from the buffer. -/
structure Sample where
  wheel : ℕ
  wheelTime : ℕ
  crank : ℕ
  crankTime : ℕ
  deriving DecidableEq

/-- The bluetoothStats dictionary: keys cadence, distance, speed. -/
structure Stats where
  cadence : ℚ
  distance : ℚ
  speed : ℚ
  deriving DecidableEq

/-- The module level mutable globals of src/main.py. -/
structure EngineState where
  previousSample : Option Sample
  currentSample : Option Sample
  hasWheel : Bool
  hasCrank : Bool
  startDistance : ℚ
  bluetoothStats : Option Stats
  deriving DecidableEq

/-- Source line 13: UINT16_MAX = 65535. -/
def UINT16_MAX : ℚ := 65535

/-- Source line 14: UINT32_MAX = 4294967295. -/
def UINT32_MAX : ℚ := 4294967295

/-- The initial values of the globals: both samples None, both flags False,
startDistance 0, bluetoothStats None. -/
def initState : EngineState :=
  { previousSample := none, currentSample := none, hasWheel := false,
    hasCrank := false, startDistance := 0, bluetoothStats := none }

/-- Source lines 20 to 24, diff_for_sample: the forward difference of two
readings of a wrapping counter, third argument as the source names it
max_value. -/
def diff_for_sample (current previous max_value : ℚ) : ℚ :=
  if previous ≤ current then current - previous else (max_value - previous) + current

/-- One exponential smoothing update, the expression of source lines 55 and
57: old * (1 - updateRatio) + value * updateRatio. -/
def smooth_step (alpha old value : ℚ) : ℚ :=
  old * (1 - alpha) + value * alpha

/-- Python division: raises ZeroDivisionError on a zero divisor. -/
def pydiv (a b : ℚ) : Except PyErr ℚ :=
  if b = 0 then Except.error PyErr.zeroDivisionError else Except.ok (a / b)

/-- Source lines 27 to 64, calculate_stats.  Reads currentSample,
previousSample, hasWheel, hasCrank, startDistance and bluetoothStats from the
state and returns the updated state.  The source indexes currentSample
unconditionally, so a state whose currentSample is None raises TypeError (in
the repository calculate_stats is only reached from parse_buffer, which has
just assigned currentSample).  The two divisions by a sample dependent
quantity go through pydiv exactly where the source divides; the guards of
lines 41 and 51 stand in front of them as in the source. -/
def calculate_stats (ws alpha : ℚ) (st : EngineState) : Except PyErr EngineState :=
  match st.currentSample with
  | none => Except.error PyErr.typeError
  | some cur =>
    match st.previousSample with
    | none =>
      Except.ok { st with startDistance := (cur.wheel : ℚ) * ws / 1000 / 1000 }
    | some prev =>
      let speedE : Except PyErr ℚ :=
        if st.hasWheel then
          let wheel_time_diff :=
            diff_for_sample (cur.wheelTime : ℚ) (prev.wheelTime : ℚ) UINT16_MAX / 1024
          let sample_distance :=
            diff_for_sample (cur.wheel : ℚ) (prev.wheel : ℚ) UINT32_MAX * ws / 1000
          if wheel_time_diff = 0 then Except.ok 0
          else
            match pydiv sample_distance wheel_time_diff with
            | Except.ok q => Except.ok (q * (36 / 10))
            | Except.error e => Except.error e
        else Except.ok 0
      match speedE with
      | Except.error e => Except.error e
      | Except.ok speed =>
        let distance : ℚ :=
          if st.hasWheel then (cur.wheel : ℚ) * ws / 1000 / 1000 - st.startDistance
          else 0
        let cadenceE : Except PyErr ℚ :=
          if st.hasCrank then
            let crank_time_diff :=
              diff_for_sample (cur.crankTime : ℚ) (prev.crankTime : ℚ) UINT16_MAX / 1024
            let crank_diff :=
              diff_for_sample (cur.crank : ℚ) (prev.crank : ℚ) UINT16_MAX
            if crank_time_diff = 0 then Except.ok 0
            else pydiv (60 * crank_diff) crank_time_diff
          else Except.ok 0
        match cadenceE with
        | Except.error e => Except.error e
        | Except.ok cadence =>
          let newStats : Stats :=
            match st.bluetoothStats with
            | some b =>
              { cadence := smooth_step alpha b.cadence cadence,
                distance := distance,
                speed := smooth_step alpha b.speed speed }
            | none => { cadence := cadence, distance := distance, speed := speed }
          Except.ok { st with bluetoothStats := some newStats }

/-- The little endian value of a list of bytes. -/
def leValue (bs : List ℕ) : ℕ :=
  bs.foldr (fun b acc => b + 256 * acc) 0

/-- The value struct.unpack_from reads: sz bytes starting at offset off,
little endian. -/
def valAt (buf : List ℕ) (off sz : ℕ) : ℕ :=
  leValue ((buf.drop off).take sz)

/-- struct.unpack_from with a little endian fixed width format: raises
struct.error when the buffer is too short for the read, otherwise yields the
little endian value of the sz bytes at offset off. -/
def unpack_le (buf : List ℕ) (off sz : ℕ) : Except PyErr ℕ :=
  if off + sz ≤ buf.length then Except.ok (valAt buf off sz)
  else Except.error PyErr.structError

/-- Indexing a bytes object; parse_buffer only indexes position 0 after the
length guard, so the default is never taken on the paths reached. -/
def byteAt (buf : List ℕ) (i : ℕ) : ℕ := buf.getD i 0

/-- Source lines 102 to 135, parse_buffer.  The length guard of line 105
returns None for a buffer shorter than 9 bytes.  Inside the try block the
source first assigns hasWheel, hasCrank (lines 113, 114) and previousSample
(line 117), then evaluates the four unpack_from calls that build the new
currentSample dictionary; a struct.error leaves the already performed
assignments in place, is caught, and None is returned.  The except clause of
line 133 catches struct.error only, so any other exception propagates. -/
def parse_buffer (ws alpha : ℚ) (buf : List ℕ) (st : EngineState) :
    Except PyErr (EngineState × Option Stats) :=
  if buf.length < 9 then Except.ok (st, none)
  else
    let flags := byteAt buf 0
    let st1 : EngineState :=
      { st with hasWheel := flags == 1 || flags == 3,
                hasCrank := flags == 2 || flags == 3,
                previousSample := st.currentSample }
    match unpack_le buf 1 4 with
    | Except.error PyErr.structError => Except.ok (st1, none)
    | Except.error e => Except.error e
    | Except.ok wheelV =>
      match unpack_le buf 5 2 with
      | Except.error PyErr.structError => Except.ok (st1, none)
      | Except.error e => Except.error e
      | Except.ok wheelTimeV =>
        match unpack_le buf 7 2 with
        | Except.error PyErr.structError => Except.ok (st1, none)
        | Except.error e => Except.error e
        | Except.ok crankV =>
          match unpack_le buf 9 2 with
          | Except.error PyErr.structError => Except.ok (st1, none)
          | Except.error e => Except.error e
          | Except.ok crankTimeV =>
            let st2 : EngineState :=
              { st1 with currentSample := some ⟨wheelV, wheelTimeV, crankV, crankTimeV⟩ }
            match calculate_stats ws alpha st2 with
            | Except.error PyErr.structError => Except.ok (st2, none)
            | Except.error e => Except.error e
            | Except.ok st3 => Except.ok (st3, st3.bluetoothStats)

/-- One successful update of the engine by a frame with flags byte f and
decoded sample s: exactly what parse_buffer does after the four field reads
succeed. -/
def update_frame (ws alpha : ℚ) (f : ℕ) (s : Sample) (st : EngineState) :
    Except PyErr EngineState :=
  calculate_stats ws alpha
    { st with hasWheel := f == 1 || f == 3,
              hasCrank := f == 2 || f == 3,
              previousSample := st.currentSample,
              currentSample := some s }

/-- The instantaneous speed of the wheel branch, source lines 36 to 41, as a
pure function of the two samples. -/
def inst_speed (hw : Bool) (ws : ℚ) (prev cur : Sample) : ℚ :=
  if hw then
    let wheel_time_diff :=
      diff_for_sample (cur.wheelTime : ℚ) (prev.wheelTime : ℚ) UINT16_MAX / 1024
    if wheel_time_diff = 0 then 0
    else diff_for_sample (cur.wheel : ℚ) (prev.wheel : ℚ) UINT32_MAX * ws / 1000 /
      wheel_time_diff * (36 / 10)
  else 0

/-- The cumulative distance of the wheel branch, source lines 43 and 44, as a
pure function of the current sample and the stored baseline sd. -/
def inst_distance (hw : Bool) (ws sd : ℚ) (cur : Sample) : ℚ :=
  if hw then (cur.wheel : ℚ) * ws / 1000 / 1000 - sd else 0

/-- The instantaneous cadence of the crank branch, source lines 46 to 51, as
a pure function of the two samples. -/
def inst_cadence (hc : Bool) (prev cur : Sample) : ℚ :=
  if hc then
    let crank_time_diff :=
      diff_for_sample (cur.crankTime : ℚ) (prev.crankTime : ℚ) UINT16_MAX / 1024
    if crank_time_diff = 0 then 0
    else 60 * diff_for_sample (cur.crank : ℚ) (prev.crank : ℚ) UINT16_MAX / crank_time_diff
  else 0

/-- The smoothing fold of source lines 53 to 64: cadence and speed get an
exponential moving average step when previous stats exist, distance is
carried through unchanged. -/
def smoothStats (alpha : ℚ) (old : Option Stats) (inst : Stats) : Stats :=
  match old with
  | some b =>
    { cadence := smooth_step alpha b.cadence inst.cadence,
      distance := inst.distance,
      speed := smooth_step alpha b.speed inst.speed }
  | none => inst

/-- Modelled from the spec: the reference speed formula of spec section 4.3,
with forward deltas taken at the moduli 65536 and 2 pow 32 that the spec
names, sample_distance_m = wheel_diff * wheel_size_m without any further
division, and speed_kmh = sample_distance_m / wheel_time_diff_s * 3.6. -/
def speed_ref (ws : ℚ) (prev cur : Sample) : ℚ :=
  let wheel_time_diff :=
    diff_for_sample (cur.wheelTime : ℚ) (prev.wheelTime : ℚ) 65536 / 1024
  let sample_distance := diff_for_sample (cur.wheel : ℚ) (prev.wheel : ℚ) 4294967296 * ws
  if wheel_time_diff = 0 then 0 else sample_distance / wheel_time_diff * (36 / 10)

/-- Modelled from the spec: the reference cadence formula of spec section
4.3, parameterised by the third argument m handed to the forward delta; the
spec passes the modulus 65536, the code passes UINT16_MAX = 65535. -/
def cadence_ref (m : ℚ) (prev cur : Sample) : ℚ :=
  let crank_time_diff :=
    diff_for_sample (cur.crankTime : ℚ) (prev.crankTime : ℚ) m / 1024
  if crank_time_diff = 0 then 0
  else 60 * diff_for_sample (cur.crank : ℚ) (prev.crank : ℚ) m / crank_time_diff

/-- Feeding the same instantaneous value v into the smoothing filter n
times, starting from the smoothed value s. -/
def smooth_iter (alpha v s : ℚ) : ℕ → ℚ
  | 0 => s
  | n + 1 => smooth_step alpha (smooth_iter alpha v s n) v

/-- The distance a state reports: the distance field of bluetoothStats, 0
while no stats exist yet. -/
def distOf (st : EngineState) : ℚ :=
  match st.bluetoothStats with
  | some b => b.distance
  | none => 0

/-- The engine state after one parse_buffer call (on the paths of the
repository parse_buffer always returns a value, so the error fallback is
never taken). -/
def parseState (ws alpha : ℚ) (buf : List ℕ) (st : EngineState) : EngineState :=
  match parse_buffer ws alpha buf st with
  | Except.ok (st2, _) => st2
  | Except.error _ => st

/-- The engine state after one successful update (update_frame never errors
when the new sample is supplied, so the fallback is never taken). -/
def step_pure (ws alpha : ℚ) (st : EngineState) (p : ℕ × Sample) : EngineState :=
  match update_frame ws alpha p.1 p.2 st with
  | Except.ok st2 => st2
  | Except.error _ => st

/-- The trace of engine states along a list of frames, starting state
included. -/
def run_states (ws alpha : ℚ) (st : EngineState) : List (ℕ × Sample) → List EngineState
  | [] => [st]
  | p :: ps => st :: run_states ws alpha (step_pure ws alpha st p) ps

/-- A list of rationals is nondecreasing: every adjacent pair is ordered. -/
def nondecreasing (l : List ℚ) : Prop :=
  List.Chain' (fun a b => a ≤ b) l

/-- The invariant a non wrapping wheel session maintains: the engine holds a
current sample whose wheel count dominates the baseline count w1, the stored
baseline distance is the one of w1, and the reported distance is nonnegative
and bounded by the cumulative distance of the current sample. -/
def wheel_inv (ws : ℚ) (w1 : ℕ) (st : EngineState) : Prop :=
  ∃ c, st.currentSample = some c ∧ w1 ≤ c.wheel ∧
    st.startDistance = (w1 : ℚ) * ws / 1000 / 1000 ∧
    distOf st ≤ (c.wheel : ℚ) * ws / 1000 / 1000 - st.startDistance ∧
    0 ≤ distOf st

lemma calc_bootstrap (ws alpha : ℚ) (cur : Sample) (hw hc : Bool) (sd : ℚ)
    (bs : Option Stats) :
    calculate_stats ws alpha ⟨none, some cur, hw, hc, sd, bs⟩ =
      Except.ok ⟨none, some cur, hw, hc, (cur.wheel : ℚ) * ws / 1000 / 1000, bs⟩ := rfl

lemma calc_main (ws alpha : ℚ) (prev cur : Sample) (hw hc : Bool) (sd : ℚ)
    (bs : Option Stats) :
    calculate_stats ws alpha ⟨some prev, some cur, hw, hc, sd, bs⟩ =
      Except.ok ⟨some prev, some cur, hw, hc, sd,
        some (smoothStats alpha bs
          ⟨inst_cadence hc prev cur, inst_distance hw ws sd cur,
           inst_speed hw ws prev cur⟩)⟩ := by
  cases hw <;> cases hc <;>
    simp only [calculate_stats, inst_speed, inst_distance, inst_cadence, smoothStats,
      pydiv, Bool.false_eq_true, if_false, if_true, reduceIte] <;>
    split_ifs <;>
    simp_all [pydiv]

lemma calculate_stats_ok (ws alpha : ℚ) (st : EngineState) (cur : Sample)
    (h : st.currentSample = some cur) :
    ∃ st2, calculate_stats ws alpha st = Except.ok st2 ∧
      st2.previousSample = st.previousSample ∧ st2.currentSample = st.currentSample ∧
      st2.hasWheel = st.hasWheel ∧ st2.hasCrank = st.hasCrank := by
  obtain ⟨ps, cs, hw, hc, sd, bs⟩ := st
  simp only at h
  subst h
  cases ps with
  | none => exact ⟨_, calc_bootstrap ws alpha cur hw hc sd bs, rfl, rfl, rfl, rfl⟩
  | some prev => exact ⟨_, calc_main ws alpha prev cur hw hc sd bs, rfl, rfl, rfl, rfl⟩

lemma unpack_le_ok (buf : List ℕ) (off sz : ℕ) (h : off + sz ≤ buf.length) :
    unpack_le buf off sz = Except.ok (valAt buf off sz) := by
  simp [unpack_le, h]

lemma unpack_le_err (buf : List ℕ) (off sz : ℕ) (h : buf.length < off + sz) :
    unpack_le buf off sz = Except.error PyErr.structError := by
  rw [unpack_le, if_neg (by omega)]

lemma parse_buffer_mid (ws alpha : ℚ) (buf : List ℕ) (st : EngineState)
    (h9 : 9 ≤ buf.length) (h11 : buf.length < 11) :
    parse_buffer ws alpha buf st =
      Except.ok
        ({ st with hasWheel := byteAt buf 0 == 1 || byteAt buf 0 == 3,
                   hasCrank := byteAt buf 0 == 2 || byteAt buf 0 == 3,
                   previousSample := st.currentSample }, none) := by
  rw [parse_buffer, if_neg (by omega)]
  rw [unpack_le_ok buf 1 4 (by omega), unpack_le_ok buf 5 2 (by omega),
    unpack_le_ok buf 7 2 (by omega), unpack_le_err buf 9 2 (by omega)]

lemma parse_buffer_long (ws alpha : ℚ) (buf : List ℕ) (st : EngineState)
    (h : 11 ≤ buf.length) :
    ∃ st3,
      update_frame ws alpha (byteAt buf 0)
          ⟨valAt buf 1 4, valAt buf 5 2, valAt buf 7 2, valAt buf 9 2⟩ st =
        Except.ok st3 ∧
      parse_buffer ws alpha buf st = Except.ok (st3, st3.bluetoothStats) ∧
      st3.previousSample = st.currentSample ∧
      st3.currentSample = some ⟨valAt buf 1 4, valAt buf 5 2, valAt buf 7 2, valAt buf 9 2⟩ ∧
      st3.hasWheel = (byteAt buf 0 == 1 || byteAt buf 0 == 3) ∧
      st3.hasCrank = (byteAt buf 0 == 2 || byteAt buf 0 == 3) := by
  obtain ⟨st3, h3, hps, hcs, hhw, hhc⟩ :=
    calculate_stats_ok ws alpha
      { st with hasWheel := byteAt buf 0 == 1 || byteAt buf 0 == 3,
                hasCrank := byteAt buf 0 == 2 || byteAt buf 0 == 3,
                previousSample := st.currentSample,
                currentSample :=
                  some ⟨valAt buf 1 4, valAt buf 5 2, valAt buf 7 2, valAt buf 9 2⟩ }
      ⟨valAt buf 1 4, valAt buf 5 2, valAt buf 7 2, valAt buf 9 2⟩ rfl
  refine ⟨st3, ?_, ?_, ?_, ?_, ?_, ?_⟩
  · rw [update_frame]; exact h3
  · rw [parse_buffer, if_neg (by omega)]
    rw [unpack_le_ok buf 1 4 (by omega), unpack_le_ok buf 5 2 (by omega),
      unpack_le_ok buf 7 2 (by omega), unpack_le_ok buf 9 2 (by omega)]
    simp only []
    rw [h3]
  · simpa using hps
  · simpa using hcs
  · simpa using hhw
  · simpa using hhc


lemma smooth_step_sub (alpha s v : ℚ) :
    smooth_step alpha s v - v = (s - v) * (1 - alpha) := by
  unfold smooth_step; ring

lemma smooth_step_abs (alpha s v : ℚ) (h1 : alpha ≤ 1) :
    |smooth_step alpha s v - v| = |s - v| * (1 - alpha) := by
  rw [smooth_step_sub, abs_mul, abs_of_nonneg (show (0 : ℚ) ≤ 1 - alpha by linarith)]

lemma smooth_iter_abs (alpha v s : ℚ) (h1 : alpha ≤ 1) (n : ℕ) :
    |smooth_iter alpha v s n - v| = |s - v| * (1 - alpha) ^ n := by
  induction n with
  | zero => simp [smooth_iter]
  | succ n ih =>
    rw [smooth_iter, smooth_step_abs _ _ _ h1, ih, pow_succ]
    ring

/-- Claim C7: diff_for_sample, handed the modulus as its third argument, maps
two counter readings in the range of the modulus to a value in that range,
equal to current - previous without wraparound and to
(modulus - previous) + current with it; the delta of equal readings is 0 and
the concrete wraparound case gives 11. -/
theorem claim_C7_forward_delta (previous current modulus : ℚ)
    (hpm : previous < modulus) (hc0 : 0 ≤ current) (hcm : current < modulus)
    (hp0 : 0 ≤ previous) :
    (0 ≤ diff_for_sample current previous modulus ∧
      diff_for_sample current previous modulus < modulus) ∧
    (previous ≤ current → diff_for_sample current previous modulus = current - previous) ∧
    (current < previous →
      diff_for_sample current previous modulus = (modulus - previous) + current) ∧
    (∀ c m : ℚ, diff_for_sample c c m = 0) ∧
    diff_for_sample 5 65530 65536 = 11 := by
  unfold diff_for_sample
  refine ⟨?_, ?_, ?_, fun c m => by simp, by norm_num⟩
  · split_ifs with h <;> constructor <;> linarith
  · intro h; rw [if_pos h]
  · intro h; rw [if_neg (by linarith)]

/-- Claim C7 witness: the wraparound instance 65530 to 5 at modulus 65536
satisfies the range bound. -/
theorem claim_C7_witness :
    0 ≤ diff_for_sample 5 65530 65536 ∧ diff_for_sample 5 65530 65536 < 65536 :=
  (claim_C7_forward_delta 65530 5 65536 (by norm_num) (by norm_num) (by norm_num)
    (by norm_num)).1

/-- Claim C9: one smoothing step strictly shrinks the distance to the
instantaneous value when they differ, repeating the same value is monotone,
and the iterates converge to the instantaneous value. -/
theorem claim_C9_smoothing (alpha s v : ℚ) (h0 : 0 < alpha) (h1 : alpha < 1) :
    (s ≠ v → |smooth_step alpha s v - v| < |s - v|) ∧
    (∀ n : ℕ, |smooth_iter alpha v s (n + 1) - v| ≤ |smooth_iter alpha v s n - v|) ∧
    (∀ ε : ℚ, 0 < ε → ∃ N : ℕ, ∀ n, N ≤ n → |smooth_iter alpha v s n - v| < ε) := by
  refine ⟨?_, ?_, ?_⟩
  · intro hne
    rw [smooth_step_abs _ _ _ h1.le]
    have habs : 0 < |s - v| := abs_pos.mpr (sub_ne_zero.mpr hne)
    nlinarith
  · intro n
    rw [show smooth_iter alpha v s (n + 1) = smooth_step alpha (smooth_iter alpha v s n) v
        from rfl,
      smooth_step_abs _ _ _ h1.le]
    have := abs_nonneg (smooth_iter alpha v s n - v)
    nlinarith
  · intro ε hε
    by_cases hsv : s = v
    · refine ⟨0, fun n _ => ?_⟩
      rw [smooth_iter_abs _ _ _ h1.le, hsv]
      simpa using hε
    · have habs : 0 < |s - v| := abs_pos.mpr (sub_ne_zero.mpr hsv)
      obtain ⟨N, hN⟩ :=
        exists_pow_lt_of_lt_one (div_pos hε habs) (by linarith : 1 - alpha < 1)
      refine ⟨N, fun n hn => ?_⟩
      rw [smooth_iter_abs _ _ _ h1.le]
      have hpow : (1 - alpha) ^ n ≤ (1 - alpha) ^ N :=
        pow_le_pow_of_le_one (by linarith) (by linarith) hn
      calc |s - v| * (1 - alpha) ^ n ≤ |s - v| * (1 - alpha) ^ N :=
            mul_le_mul_of_nonneg_left hpow habs.le
        _ < |s - v| * (ε / |s - v|) := mul_lt_mul_of_pos_left hN habs
        _ = ε := by field_simp

/-- Claim C9 witness: with factor one half, one step from 0 toward 1
strictly shrinks the distance. -/
theorem claim_C9_witness : |smooth_step (1/2) 0 1 - 1| < |(0 : ℚ) - 1| :=
  (claim_C9_smoothing (1/2) 0 1 (by norm_num) (by norm_num)).1 (by norm_num)

/-- Claim C10: parse_buffer is total: on every buffer and every engine state
it returns a value and propagates no exception; short buffers take the
length guard, a failing field read is caught by the except clause, and the
stats computation never raises because both of its divisions are guarded. -/
theorem claim_C10_total (ws alpha : ℚ) (buf : List ℕ) (st : EngineState) :
    ∃ r, parse_buffer ws alpha buf st = Except.ok r := by
  by_cases h9 : buf.length < 9
  · exact ⟨(st, none), by rw [parse_buffer, if_pos h9]⟩
  · by_cases h11 : 11 ≤ buf.length
    · obtain ⟨st3, _, hp, _⟩ := parse_buffer_long ws alpha buf st h11
      exact ⟨_, hp⟩
    · exact ⟨_, parse_buffer_mid ws alpha buf st (by omega) (by omega)⟩

lemma smooth_toward_zero (alpha x : ℚ) (h0 : 0 ≤ alpha) (h1 : alpha ≤ 1) :
    |smooth_step alpha x 0| ≤ |x| := by
  have hs : smooth_step alpha x 0 = x * (1 - alpha) := by unfold smooth_step; ring
  rw [hs, abs_mul, abs_of_nonneg (show (0 : ℚ) ≤ 1 - alpha by linarith)]
  nlinarith [abs_nonneg x]

/-- Claim C1: evaluation of the code at the concrete scenario of the claim.
With wheel size 2, a first frame with wheel count 1000 and a second frame
1024 ticks later with wheel count 1010, the engine reports speed 9/125 km/h,
while the reference definition of the spec gives exactly 72; the code divides
the sample distance by 1000 once more than the reference and hands the delta
function the maxima 65535 and 4294967295 instead of the moduli. -/
theorem claim_C1_speed_vs_ref :
    parse_buffer 2 (1/10) [1, 232, 3, 0, 0, 0, 0, 0, 0, 0, 0] initState =
      Except.ok (⟨none, some ⟨1000, 0, 0, 0⟩, true, false, 1/500, none⟩, none) ∧
    parse_buffer 2 (1/10) [1, 242, 3, 0, 0, 0, 4, 0, 0, 0, 0]
        ⟨none, some ⟨1000, 0, 0, 0⟩, true, false, 1/500, none⟩ =
      Except.ok (⟨some ⟨1000, 0, 0, 0⟩, some ⟨1010, 1024, 0, 0⟩, true, false, 1/500,
        some ⟨0, 1/50000, 9/125⟩⟩, some ⟨0, 1/50000, 9/125⟩) ∧
    speed_ref 2 ⟨1000, 0, 0, 0⟩ ⟨1010, 1024, 0, 0⟩ = 72 ∧
    ((9 : ℚ)/125 ≠ 72) := by
  refine ⟨?_, ?_, ?_, by norm_num⟩
  · norm_num [parse_buffer, calculate_stats, unpack_le, valAt, leValue, byteAt, initState,
      UINT16_MAX, UINT32_MAX, diff_for_sample, smooth_step, pydiv]
  · norm_num [parse_buffer, calculate_stats, unpack_le, valAt, leValue, byteAt,
      UINT16_MAX, UINT32_MAX, diff_for_sample, smooth_step, pydiv]
  · norm_num [speed_ref, diff_for_sample]

/-- Claim C2: evaluation of the code at a failing decode.  After one
successful frame, a 9 byte buffer passes the length guard, fails the read at
offset 9, is caught and returns None, yet previousSample has already been
overwritten with currentSample: a decode failure does replace
previousSample. -/
theorem claim_C2_failure_replaces_previous :
    parse_buffer 2 (1/10) [1, 232, 3, 0, 0, 0, 0, 0, 0, 0, 0] initState =
      Except.ok (⟨none, some ⟨1000, 0, 0, 0⟩, true, false, 1/500, none⟩, none) ∧
    parse_buffer 2 (1/10) [3, 0, 0, 0, 0, 0, 0, 0, 0]
        ⟨none, some ⟨1000, 0, 0, 0⟩, true, false, 1/500, none⟩ =
      Except.ok (⟨some ⟨1000, 0, 0, 0⟩, some ⟨1000, 0, 0, 0⟩, true, true, 1/500, none⟩,
        none) ∧
    (some (⟨1000, 0, 0, 0⟩ : Sample) ≠ (none : Option Sample)) := by
  refine ⟨?_, ?_, by simp⟩
  · norm_num [parse_buffer, calculate_stats, unpack_le, valAt, leValue, byteAt, initState,
      UINT16_MAX, UINT32_MAX, diff_for_sample, smooth_step, pydiv]
  · norm_num [parse_buffer, calculate_stats, unpack_le, valAt, leValue, byteAt,
      UINT16_MAX, UINT32_MAX, diff_for_sample, smooth_step, pydiv]

/-- Claim C3 counterexample: a 9 byte buffer passes the minimum length check
and still fails the fixed offset read at offset 9, so the defensive branch is
reachable for a buffer of length at least 9. -/
theorem claim_C3_cex :
    (9 : ℕ) ≤ List.length [0, 0, 0, 0, 0, 0, 0, 0, 0] ∧
    unpack_le [0, 0, 0, 0, 0, 0, 0, 0, 0] 9 2 = Except.error PyErr.structError ∧
    parse_buffer 2 (1/10) [0, 0, 0, 0, 0, 0, 0, 0, 0] initState =
      Except.ok (⟨none, none, false, false, 0, none⟩, none) := by
  refine ⟨by norm_num, by norm_num [unpack_le], ?_⟩
  norm_num [parse_buffer, calculate_stats, unpack_le, valAt, leValue, byteAt, initState]

/-- Claim C3 as amended: for a buffer of length at least 11 every fixed
offset field read succeeds and parse_buffer installs the decoded sample,
while for lengths 9 and 10 the read of the crank event time at offset 9
fails with a struct error. -/
theorem claim_C3_reads_succeed (buf : List ℕ) (st : EngineState) (ws alpha : ℚ) :
    (11 ≤ buf.length →
      unpack_le buf 1 4 = Except.ok (valAt buf 1 4) ∧
      unpack_le buf 5 2 = Except.ok (valAt buf 5 2) ∧
      unpack_le buf 7 2 = Except.ok (valAt buf 7 2) ∧
      unpack_le buf 9 2 = Except.ok (valAt buf 9 2) ∧
      (parseState ws alpha buf st).currentSample =
        some ⟨valAt buf 1 4, valAt buf 5 2, valAt buf 7 2, valAt buf 9 2⟩) ∧
    (9 ≤ buf.length → buf.length < 11 →
      unpack_le buf 9 2 = Except.error PyErr.structError) := by
  constructor
  · intro h
    obtain ⟨st3, _, hp, _, hcs, _⟩ := parse_buffer_long ws alpha buf st h
    refine ⟨unpack_le_ok _ _ _ (by omega), unpack_le_ok _ _ _ (by omega),
      unpack_le_ok _ _ _ (by omega), unpack_le_ok _ _ _ (by omega), ?_⟩
    simp only [parseState, hp]
    exact hcs
  · intro _ h11
    exact unpack_le_err _ _ _ (by omega)

/-- Claim C3 witness: the reads at a concrete 11 byte buffer. -/
theorem claim_C3_witness :
    unpack_le [1, 0, 0, 0, 0, 0, 0, 0, 0, 0, 0] 1 4 =
      Except.ok (valAt [1, 0, 0, 0, 0, 0, 0, 0, 0, 0, 0] 1 4) ∧
    unpack_le [1, 0, 0, 0, 0, 0, 0, 0, 0, 0, 0] 5 2 =
      Except.ok (valAt [1, 0, 0, 0, 0, 0, 0, 0, 0, 0, 0] 5 2) ∧
    unpack_le [1, 0, 0, 0, 0, 0, 0, 0, 0, 0, 0] 7 2 =
      Except.ok (valAt [1, 0, 0, 0, 0, 0, 0, 0, 0, 0, 0] 7 2) ∧
    unpack_le [1, 0, 0, 0, 0, 0, 0, 0, 0, 0, 0] 9 2 =
      Except.ok (valAt [1, 0, 0, 0, 0, 0, 0, 0, 0, 0, 0] 9 2) ∧
    (parseState 2 (1/10) [1, 0, 0, 0, 0, 0, 0, 0, 0, 0, 0] initState).currentSample =
      some ⟨valAt [1, 0, 0, 0, 0, 0, 0, 0, 0, 0, 0] 1 4,
        valAt [1, 0, 0, 0, 0, 0, 0, 0, 0, 0, 0] 5 2,
        valAt [1, 0, 0, 0, 0, 0, 0, 0, 0, 0, 0] 7 2,
        valAt [1, 0, 0, 0, 0, 0, 0, 0, 0, 0, 0] 9 2⟩ :=
  (claim_C3_reads_succeed [1, 0, 0, 0, 0, 0, 0, 0, 0, 0, 0] initState 2 (1/10)).1
    (by norm_num)

/-- Claim C4 counterexample: a successfully decoded frame whose flags byte is
5 has bit 0 set, yet the engine marks wheel data absent, because the source
tests flags == 1 or flags == 3 instead of bit 0. -/
theorem claim_C4_cex :
    parse_buffer 2 (1/10) [5, 0, 0, 0, 0, 0, 0, 0, 0, 0, 0] initState =
      Except.ok (⟨none, some ⟨0, 0, 0, 0⟩, false, false, 0, none⟩, none) ∧
    Nat.testBit 5 0 = true ∧
    ((false : Bool) ≠ true) := by
  refine ⟨?_, by norm_num, by simp⟩
  norm_num [parse_buffer, calculate_stats, unpack_le, valAt, leValue, byteAt, initState]

/-- Claim C4 as amended: after any parse of a buffer of length at least 9
the engine marks wheel data present exactly when the flags byte equals 1 or
3 and crank data present exactly when it equals 2 or 3; on flag bytes below
4 this coincides with testing bit 0 and bit 1. -/
theorem claim_C4_flag_decoding (ws alpha : ℚ) (buf : List ℕ) (st : EngineState)
    (h : 9 ≤ buf.length) :
    (parseState ws alpha buf st).hasWheel = (byteAt buf 0 == 1 || byteAt buf 0 == 3) ∧
    (parseState ws alpha buf st).hasCrank = (byteAt buf 0 == 2 || byteAt buf 0 == 3) ∧
    (∀ f : ℕ, f < 4 →
      ((f == 1 || f == 3) = f.testBit 0 ∧ (f == 2 || f == 3) = f.testBit 1)) := by
  have hmain : (parseState ws alpha buf st).hasWheel =
        (byteAt buf 0 == 1 || byteAt buf 0 == 3) ∧
      (parseState ws alpha buf st).hasCrank =
        (byteAt buf 0 == 2 || byteAt buf 0 == 3) := by
    by_cases h11 : 11 ≤ buf.length
    · obtain ⟨st3, _, hp, _, _, hhw, hhc⟩ := parse_buffer_long ws alpha buf st h11
      simp only [parseState, hp]
      exact ⟨hhw, hhc⟩
    · rw [parseState, parse_buffer_mid ws alpha buf st h (by omega)]
      exact ⟨rfl, rfl⟩
  refine ⟨hmain.1, hmain.2, ?_⟩
  intro f hf
  interval_cases f <;> exact ⟨by decide, by decide⟩

/-- Claim C4 witness: the flag equalities at the concrete frame with flags
byte 5. -/
theorem claim_C4_witness :
    (parseState 2 (1/10) [5, 0, 0, 0, 0, 0, 0, 0, 0, 0, 0] initState).hasWheel =
      (byteAt [5, 0, 0, 0, 0, 0, 0, 0, 0, 0, 0] 0 == 1 ||
        byteAt [5, 0, 0, 0, 0, 0, 0, 0, 0, 0, 0] 0 == 3) :=
  (claim_C4_flag_decoding 2 (1/10) [5, 0, 0, 0, 0, 0, 0, 0, 0, 0, 0] initState
    (by norm_num)).1

/-- Claim C5 counterexample: a crank event time wraparound.  The previous
crank time is 65530 ticks, the current one 2; the code computes the cadence
184320/7 from a 7 tick delta, while the reference definition of the spec at
modulus 65536 computes 23040 from an 8 tick delta. -/
theorem claim_C5_cex :
    parse_buffer 2 (1/10) [2, 0, 0, 0, 0, 0, 0, 0, 0, 250, 255] initState =
      Except.ok (⟨none, some ⟨0, 0, 0, 65530⟩, false, true, 0, none⟩, none) ∧
    parse_buffer 2 (1/10) [2, 0, 0, 0, 0, 0, 0, 3, 0, 2, 0]
        ⟨none, some ⟨0, 0, 0, 65530⟩, false, true, 0, none⟩ =
      Except.ok (⟨some ⟨0, 0, 0, 65530⟩, some ⟨0, 0, 3, 2⟩, false, true, 0,
        some ⟨184320/7, 0, 0⟩⟩, some ⟨184320/7, 0, 0⟩) ∧
    cadence_ref 65536 ⟨0, 0, 0, 65530⟩ ⟨0, 0, 3, 2⟩ = 23040 ∧
    ((184320 : ℚ)/7 ≠ 23040) := by
  refine ⟨?_, ?_, ?_, by norm_num⟩
  · norm_num [parse_buffer, calculate_stats, unpack_le, valAt, leValue, byteAt, initState,
      UINT16_MAX, UINT32_MAX, diff_for_sample, smooth_step, pydiv]
  · norm_num [parse_buffer, calculate_stats, unpack_le, valAt, leValue, byteAt,
      UINT16_MAX, UINT32_MAX, diff_for_sample, smooth_step, pydiv]
  · norm_num [cadence_ref, diff_for_sample]

/-- Claim C5 as amended: on a bootstrapped update whose sample has the crank
flag set, the cadence the engine folds in equals the reference formula of
the spec with the delta function handed UINT16_MAX = 65535 instead of the
modulus 65536; the two references agree whenever neither crank counter
wrapped, and the concrete case of 3 revolutions in half a second still
gives 360. -/
theorem claim_C5_crank_branch (ws alpha sd : ℚ) (prev cur : Sample)
    (bs : Option Stats) (hw : Bool) :
    (∃ st2, calculate_stats ws alpha ⟨some prev, some cur, hw, true, sd, bs⟩ =
        Except.ok st2 ∧
      ∃ b2, st2.bluetoothStats = some b2 ∧
        b2.cadence = (match bs with
          | some b => smooth_step alpha b.cadence (cadence_ref UINT16_MAX prev cur)
          | none => cadence_ref UINT16_MAX prev cur)) ∧
    cadence_ref 65535 ⟨0, 0, 0, 0⟩ ⟨0, 0, 3, 512⟩ = 360 ∧
    (prev.crankTime ≤ cur.crankTime → prev.crank ≤ cur.crank →
      cadence_ref 65535 prev cur = cadence_ref 65536 prev cur) := by
  refine ⟨?_, by norm_num [cadence_ref, diff_for_sample], ?_⟩
  · have hcad : inst_cadence true prev cur = cadence_ref UINT16_MAX prev cur := by
      simp [inst_cadence, cadence_ref]
    refine ⟨_, calc_main ws alpha prev cur hw true sd bs, ?_⟩
    cases bs with
    | none => exact ⟨_, rfl, by simp [smoothStats, hcad]⟩
    | some b => exact ⟨_, rfl, by simp [smoothStats, hcad]⟩
  · intro h1 h2
    have h1q : (prev.crankTime : ℚ) ≤ (cur.crankTime : ℚ) := by exact_mod_cast h1
    have h2q : (prev.crank : ℚ) ≤ (cur.crank : ℚ) := by exact_mod_cast h2
    simp [cadence_ref, diff_for_sample, h1q, h2q]

/-- Claim C5 witness: the concrete reference cadence of 3 revolutions in
half a second. -/
theorem claim_C5_witness :
    cadence_ref 65535 ⟨0, 0, 0, 0⟩ ⟨0, 0, 3, 512⟩ = 360 :=
  (claim_C5_crank_branch 2 (1/10) 0 ⟨0, 0, 0, 0⟩ ⟨0, 0, 3, 512⟩ none false).2.1

/-- Claim C6 counterexample: after a frame that moved the wheel the reported
distance is 1/500; the next frame has neither flag set and the engine then
reports distance 0, not the previous value. -/
theorem claim_C6_cex :
    parse_buffer 2 (1/10) [1, 208, 7, 0, 0, 0, 4, 0, 0, 0, 0]
        ⟨none, some ⟨1000, 0, 0, 0⟩, true, false, 1/500, none⟩ =
      Except.ok (⟨some ⟨1000, 0, 0, 0⟩, some ⟨2000, 1024, 0, 0⟩, true, false, 1/500,
        some ⟨0, 1/500, 36/5⟩⟩, some ⟨0, 1/500, 36/5⟩) ∧
    parse_buffer 2 (1/10) [0, 0, 0, 0, 0, 0, 0, 0, 0, 0, 0]
        ⟨some ⟨1000, 0, 0, 0⟩, some ⟨2000, 1024, 0, 0⟩, true, false, 1/500,
          some ⟨0, 1/500, 36/5⟩⟩ =
      Except.ok (⟨some ⟨2000, 1024, 0, 0⟩, some ⟨0, 0, 0, 0⟩, false, false, 1/500,
        some ⟨0, 0, 162/25⟩⟩, some ⟨0, 0, 162/25⟩) ∧
    ((0 : ℚ) ≠ 1/500) := by
  refine ⟨?_, ?_, by norm_num⟩
  · norm_num [parse_buffer, calculate_stats, unpack_le, valAt, leValue, byteAt,
      UINT16_MAX, UINT32_MAX, diff_for_sample, smooth_step, pydiv]
  · norm_num [parse_buffer, calculate_stats, unpack_le, valAt, leValue, byteAt,
      UINT16_MAX, UINT32_MAX, diff_for_sample, smooth_step, pydiv]

/-- Claim C6 as amended: a bootstrapped update with neither flag set resets
the reported distance to 0 rather than freezing it, while cadence and speed
are smoothed toward zero. -/
theorem claim_C6_no_flags (ws alpha sd : ℚ) (prev cur : Sample) (b : Stats) :
    calculate_stats ws alpha ⟨some prev, some cur, false, false, sd, some b⟩ =
      Except.ok ⟨some prev, some cur, false, false, sd,
        some ⟨smooth_step alpha b.cadence 0, 0, smooth_step alpha b.speed 0⟩⟩ ∧
    (0 ≤ alpha → alpha ≤ 1 →
      |smooth_step alpha b.cadence 0| ≤ |b.cadence| ∧
      |smooth_step alpha b.speed 0| ≤ |b.speed|) := by
  constructor
  · rw [calc_main]
    simp [smoothStats, inst_cadence, inst_distance, inst_speed]
  · intro h0 h1
    exact ⟨smooth_toward_zero alpha b.cadence h0 h1, smooth_toward_zero alpha b.speed h0 h1⟩

/-- Claim C6 witness: the reset at a concrete state with stats 10, 5, 20. -/
theorem claim_C6_witness :
    calculate_stats 2 (1/10) ⟨some ⟨0, 0, 0, 0⟩, some ⟨0, 0, 0, 0⟩, false, false, 0,
        some ⟨10, 5, 20⟩⟩ =
      Except.ok ⟨some ⟨0, 0, 0, 0⟩, some ⟨0, 0, 0, 0⟩, false, false, 0,
        some ⟨smooth_step (1/10) 10 0, 0, smooth_step (1/10) 20 0⟩⟩ :=
  (claim_C6_no_flags 2 (1/10) 0 ⟨0, 0, 0, 0⟩ ⟨0, 0, 0, 0⟩ ⟨10, 5, 20⟩).1

lemma smoothStats_distance (alpha : ℚ) (bs : Option Stats) (i : Stats) :
    (smoothStats alpha bs i).distance = i.distance := by
  cases bs <;> rfl

lemma step_pure_main (ws alpha : ℚ) (f : ℕ) (s : Sample) (ps : Option Sample)
    (c : Sample) (hw hc : Bool) (sd : ℚ) (bs : Option Stats) :
    step_pure ws alpha ⟨ps, some c, hw, hc, sd, bs⟩ (f, s) =
      ⟨some c, some s, f == 1 || f == 3, f == 2 || f == 3, sd,
        some (smoothStats alpha bs
          ⟨inst_cadence (f == 2 || f == 3) c s,
           inst_distance (f == 1 || f == 3) ws sd s,
           inst_speed (f == 1 || f == 3) ws c s⟩)⟩ := by
  simp only [step_pure, update_frame]
  rw [calc_main]

lemma step_pure_boot (ws alpha : ℚ) (f : ℕ) (s : Sample) (ps : Option Sample)
    (hw hc : Bool) (sd : ℚ) (bs : Option Stats) :
    step_pure ws alpha ⟨ps, none, hw, hc, sd, bs⟩ (f, s) =
      ⟨none, some s, f == 1 || f == 3, f == 2 || f == 3,
        (s.wheel : ℚ) * ws / 1000 / 1000, bs⟩ := by
  simp only [step_pure, update_frame]
  rw [calc_bootstrap]

lemma step_wheel (ws alpha : ℚ) (hws : 0 ≤ ws) (w1 : ℕ) (st : EngineState)
    (f : ℕ) (s : Sample) (hf : f = 1 ∨ f = 3) (hInv : wheel_inv ws w1 st)
    (hle : ∀ c, st.currentSample = some c → c.wheel ≤ s.wheel) :
    wheel_inv ws w1 (step_pure ws alpha st (f, s)) ∧
    distOf st ≤ distOf (step_pure ws alpha st (f, s)) ∧
    (step_pure ws alpha st (f, s)).currentSample = some s := by
  obtain ⟨c, hc, hw1, hsd, hdb, hd0⟩ := hInv
  obtain ⟨ps, cs, hw, hcr, sd, bs⟩ := st
  simp only at hc hsd hdb hd0 hle
  subst hc
  have hcw : c.wheel ≤ s.wheel := hle c rfl
  have hfW : (f == 1 || f == 3) = true := by
    rcases hf with h | h <;> subst h <;> rfl
  have hdist : distOf (step_pure ws alpha ⟨ps, some c, hw, hcr, sd, bs⟩ (f, s)) =
      (s.wheel : ℚ) * ws / 1000 / 1000 - sd := by
    rw [step_pure_main]
    simp only [distOf, smoothStats_distance, hfW]
    simp [inst_distance]
  have hc1 : (c.wheel : ℚ) ≤ (s.wheel : ℚ) := by exact_mod_cast hcw
  have hw1q : (w1 : ℚ) ≤ (c.wheel : ℚ) := by exact_mod_cast hw1
  have hmulc : (c.wheel : ℚ) * ws / 1000 / 1000 ≤ (s.wheel : ℚ) * ws / 1000 / 1000 := by
    gcongr
  have hmulw : (w1 : ℚ) * ws / 1000 / 1000 ≤ (s.wheel : ℚ) * ws / 1000 / 1000 := by
    gcongr
    linarith
  refine ⟨⟨s, ?_, le_trans hw1 hcw, ?_, ?_, ?_⟩, ?_, ?_⟩
  · rw [step_pure_main]
  · rw [step_pure_main]
    simpa using hsd
  · rw [hdist, step_pure_main]
  · rw [hdist, hsd]
    linarith [hmulw]
  · rw [hdist]
    subst hsd
    linarith [hdb, hmulc]
  · rw [step_pure_main]

lemma run_states_chain (ws alpha : ℚ) (hws : 0 ≤ ws) (frames : List (ℕ × Sample)) :
    ∀ (st : EngineState) (w1 : ℕ),
      (∀ p ∈ frames, p.1 = 1 ∨ p.1 = 3) →
      List.Chain' (fun a b => a.2.wheel ≤ b.2.wheel) frames →
      wheel_inv ws w1 st →
      (∀ c p, st.currentSample = some c → frames.head? = some p → c.wheel ≤ p.2.wheel) →
      nondecreasing (List.map distOf (run_states ws alpha st frames)) ∧
      ∀ d ∈ List.map distOf (run_states ws alpha st frames), 0 ≤ d := by
  induction frames with
  | nil =>
    intro st w1 _ _ hInv _
    obtain ⟨c, _, _, _, _, hd0⟩ := hInv
    constructor
    · simp [run_states, nondecreasing]
    · simpa [run_states] using hd0
  | cons p rest ih =>
    intro st w1 hf hchain hInv hhead
    obtain ⟨f, s⟩ := p
    have hf1 : f = 1 ∨ f = 3 := by
      have := hf (f, s) (List.mem_cons_self _ _)
      simpa using this
    have hle : ∀ c, st.currentSample = some c → c.wheel ≤ s.wheel := by
      intro c hc
      exact hhead c (f, s) hc rfl
    have hd0 : 0 ≤ distOf st := by
      obtain ⟨c, _, _, _, _, h⟩ := hInv
      exact h
    obtain ⟨hInv2, hmono, hcs2⟩ := step_wheel ws alpha hws w1 st f s hf1 hInv hle
    rw [List.chain'_cons'] at hchain
    obtain ⟨hhd, hchain2⟩ := hchain
    have hf2 : ∀ q ∈ rest, q.1 = 1 ∨ q.1 = 3 := fun q hq =>
      hf q (List.mem_cons_of_mem _ hq)
    have hhead2 : ∀ c q, (step_pure ws alpha st (f, s)).currentSample = some c →
        rest.head? = some q → c.wheel ≤ q.2.wheel := by
      intro c q hc hq
      rw [hcs2] at hc
      cases hc
      exact hhd q hq
    obtain ⟨hchainL, hposL⟩ :=
      ih (step_pure ws alpha st (f, s)) w1 hf2 hchain2 hInv2 hhead2
    have hheadL : (List.map distOf
        (run_states ws alpha (step_pure ws alpha st (f, s)) rest)).head? =
        some (distOf (step_pure ws alpha st (f, s))) := by
      cases rest <;> simp [run_states]
    constructor
    · show List.Chain' _ _
      rw [run_states, List.map_cons, List.chain'_cons']
      refine ⟨?_, hchainL⟩
      intro y hy
      rw [hheadL] at hy
      cases hy
      exact hmono
    · rw [run_states, List.map_cons]
      intro d hd
      rcases List.mem_cons.mp hd with h | h
      · subst h
        exact hd0
      · exact hposL d h

/-- Claim C8 counterexample: three frames whose flags bytes 1, 1, 5 all have
bit 0 set and whose wheel counts 1000, 2000, 3000 never decrease, yet the
reported distance drops from 1/500 to 0 on the third frame, because the code
reads a flags byte of 5 as wheel data absent. -/
theorem claim_C8_cex :
    parse_buffer 2 (1/10) [1, 232, 3, 0, 0, 0, 0, 0, 0, 0, 0] initState =
      Except.ok (⟨none, some ⟨1000, 0, 0, 0⟩, true, false, 1/500, none⟩, none) ∧
    parse_buffer 2 (1/10) [1, 208, 7, 0, 0, 0, 4, 0, 0, 0, 0]
        ⟨none, some ⟨1000, 0, 0, 0⟩, true, false, 1/500, none⟩ =
      Except.ok (⟨some ⟨1000, 0, 0, 0⟩, some ⟨2000, 1024, 0, 0⟩, true, false, 1/500,
        some ⟨0, 1/500, 36/5⟩⟩, some ⟨0, 1/500, 36/5⟩) ∧
    parse_buffer 2 (1/10) [5, 184, 11, 0, 0, 0, 8, 0, 0, 0, 0]
        ⟨some ⟨1000, 0, 0, 0⟩, some ⟨2000, 1024, 0, 0⟩, true, false, 1/500,
          some ⟨0, 1/500, 36/5⟩⟩ =
      Except.ok (⟨some ⟨2000, 1024, 0, 0⟩, some ⟨3000, 2048, 0, 0⟩, false, false, 1/500,
        some ⟨0, 0, 162/25⟩⟩, some ⟨0, 0, 162/25⟩) ∧
    Nat.testBit 1 0 = true ∧ Nat.testBit 5 0 = true ∧
    (1000 : ℕ) ≤ 2000 ∧ (2000 : ℕ) ≤ 3000 ∧
    ¬ ((1 : ℚ)/500 ≤ 0) := by
  refine ⟨?_, ?_, ?_, by norm_num, by norm_num, by norm_num, by norm_num, by norm_num⟩
  · norm_num [parse_buffer, calculate_stats, unpack_le, valAt, leValue, byteAt, initState,
      UINT16_MAX, UINT32_MAX, diff_for_sample, smooth_step, pydiv]
  · norm_num [parse_buffer, calculate_stats, unpack_le, valAt, leValue, byteAt,
      UINT16_MAX, UINT32_MAX, diff_for_sample, smooth_step, pydiv]
  · norm_num [parse_buffer, calculate_stats, unpack_le, valAt, leValue, byteAt,
      UINT16_MAX, UINT32_MAX, diff_for_sample, smooth_step, pydiv]

/-- Claim C8 as amended: across every run of successful updates whose flags
bytes are all 1 or 3 (the values the code reads as wheel data present) and
whose wheel counts never decrease, the distances reported along the trace
are nonnegative and nondecreasing, starting from 0 before the first
snapshot. -/
theorem claim_C8_distance_monotone (ws alpha : ℚ) (frames : List (ℕ × Sample))
    (hws : 0 ≤ ws) (hf : ∀ p ∈ frames, p.1 = 1 ∨ p.1 = 3)
    (hchain : List.Chain' (fun a b => a.2.wheel ≤ b.2.wheel) frames) :
    nondecreasing (List.map distOf (run_states ws alpha initState frames)) ∧
    ∀ d ∈ List.map distOf (run_states ws alpha initState frames), 0 ≤ d := by
  cases frames with
  | nil =>
    constructor
    · simp [run_states, nondecreasing]
    · simp [run_states, distOf, initState]
  | cons p rest =>
    obtain ⟨f, s⟩ := p
    have hboot : step_pure ws alpha initState (f, s) =
        ⟨none, some s, f == 1 || f == 3, f == 2 || f == 3,
          (s.wheel : ℚ) * ws / 1000 / 1000, none⟩ := by
      rw [show initState = (⟨none, none, false, false, 0, none⟩ : EngineState) from rfl]
      rw [step_pure_boot]
    have hInv1 : wheel_inv ws s.wheel (step_pure ws alpha initState (f, s)) := by
      rw [hboot]
      exact ⟨s, rfl, le_refl _, rfl, by simp [distOf], by simp [distOf]⟩
    rw [List.chain'_cons'] at hchain
    obtain ⟨hhd, hchain2⟩ := hchain
    have hf2 : ∀ q ∈ rest, q.1 = 1 ∨ q.1 = 3 := fun q hq =>
      hf q (List.mem_cons_of_mem _ hq)
    have hhead2 : ∀ c q, (step_pure ws alpha initState (f, s)).currentSample = some c →
        rest.head? = some q → c.wheel ≤ q.2.wheel := by
      intro c q hc hq
      rw [hboot] at hc
      simp only at hc
      cases hc
      exact hhd q hq
    obtain ⟨hchainL, hposL⟩ :=
      run_states_chain ws alpha hws rest (step_pure ws alpha initState (f, s)) s.wheel
        hf2 hchain2 hInv1 hhead2
    have hd1 : distOf (step_pure ws alpha initState (f, s)) = 0 := by
      rw [hboot]
      simp [distOf]
    have hheadL : (List.map distOf
        (run_states ws alpha (step_pure ws alpha initState (f, s)) rest)).head? =
        some (distOf (step_pure ws alpha initState (f, s))) := by
      cases rest <;> simp [run_states]
    constructor
    · show List.Chain' _ _
      rw [run_states, List.map_cons, List.chain'_cons']
      refine ⟨?_, hchainL⟩
      intro y hy
      rw [hheadL] at hy
      cases hy
      rw [hd1]
      simp [distOf, initState]
    · rw [run_states, List.map_cons]
      intro d hd
      rcases List.mem_cons.mp hd with h | h
      · subst h
        simp [distOf, initState]
      · exact hposL d h

/-- Claim C8 witness: the distances along a concrete two frame run are
nondecreasing. -/
theorem claim_C8_witness :
    nondecreasing (List.map distOf (run_states 2 (1/10) initState
      [(1, ⟨1000, 0, 0, 0⟩), (1, ⟨1010, 1024, 0, 0⟩)])) :=
  (claim_C8_distance_monotone 2 (1/10) [(1, ⟨1000, 0, 0, 0⟩), (1, ⟨1010, 1024, 0, 0⟩)]
    (by norm_num) (by decide)
    (by simp [List.chain'_cons])).1
